import Mathlib

/-!
# Registration & Capacity Engine — verification development

Shallow embedding of the registration subsystem of the campus-events
platform (`backend/routes/registrations.js`, `backend/models/Registration.js`,
`backend/models/Event.js`, and the websocket client service), together with
proofs and refutations of the specified properties.

The state models a single event together with all Registration documents for
that event (the Mongo collection filtered to one `eventId`); registrations
for other events do not interact with any of the properties below, and the
unique index on `(user, event)` is per event.  Machine integers are modelled
as `Int`/`Nat`: the Mongo counter `registration.currentCount` is a plain
number that `$inc` can drive negative, so it is an `Int`.
-/

namespace InfiniteLocus

/-- The `status` enum of `registrationSchema` in `backend/models/Registration.js`. -/
inductive RegStatus
  | pending
  | approved
  | rejected
  | cancelled
  | attended
  | absent
deriving DecidableEq, Repr

/-- The `status` enum of `eventSchema` in `backend/models/Event.js`. -/
inductive EvStatus
  | draft
  | pendingApproval
  | approvedStatus
  | published
  | cancelledStatus
  | completed
deriving DecidableEq, Repr

/-- The `allowedRoles` enum of `eventSchema.registration` in `backend/models/Event.js`. -/
inductive Role
  | student
  | faculty
  | organizer
  | admin
  | authority
  | hod
  | principal
  | registrar
deriving DecidableEq, Repr

/-- The caller attributes `canUserRegister` consults (`backend/models/User.js`):
`role`, `department` (an ObjectId, modelled as `Nat`), `year`. -/
structure UserRec where
  id : Nat
  role : Role
  department : Nat
  year : Nat
deriving DecidableEq, Repr

/-- The fields of `eventSchema` that the registration routes read or write
(`backend/models/Event.js`): `status`, the `registration` subdocument's
`maxCapacity`, `currentCount`, `approvalRequired`, `deadline`, `fee.amount`,
and the three eligibility allow-lists. -/
structure EventRec where
  status : EvStatus
  maxCapacity : Nat
  currentCount : Int
  approvalRequired : Bool
  deadline : Option Nat
  feeAmount : Nat
  allowedRoles : List Role
  allowedDepartments : List Nat
  allowedYears : List Nat
deriving DecidableEq, Repr

/-- A Registration document (`backend/models/Registration.js`), restricted to
the fields the modelled routes read or write. -/
structure Registration where
  id : Nat
  user : Nat
  status : RegStatus
  cancellationReason : Option String := none
  rejectionReason : Option String := none
  approvedBy : Option Nat := none
  attendanceMarked : Bool := false
  paymentRequired : Bool := false
deriving DecidableEq, Repr

/-- The method `registrationSchema.methods.approve` (`Registration.js` lines 142-147):
set `status` to `approved`, record the approver. -/
def Registration.approveDoc (r : Registration) (approver : Nat) : Registration :=
  { r with status := RegStatus.approved, approvedBy := some approver }

/-- The method `registrationSchema.methods.reject` (`Registration.js` lines 149-155):
set `status` to `rejected`, record the reason and the approver. -/
def Registration.rejectDoc (r : Registration) (reason : Option String) (approver : Nat) :
    Registration :=
  { r with status := RegStatus.rejected, rejectionReason := reason, approvedBy := some approver }

/-- The method `registrationSchema.methods.markAttendance` (`Registration.js` lines 157-167):
set `status` to `attended` or `absent` and flag `attendanceMarked`.  It never
touches the event's `currentCount`. -/
def Registration.markAttendanceDoc (r : Registration) (present : Bool) : Registration :=
  { r with status := if present then RegStatus.attended else RegStatus.absent,
           attendanceMarked := true }

/-- The virtual `availableSlots` of `eventSchema` (`Event.js` lines 261-263):
`Math.max(0, maxCapacity - currentCount)`. -/
def availableSlots (ev : EventRec) : Int :=
  max 0 ((ev.maxCapacity : Int) - ev.currentCount)

/-- The virtual `isFull` of `eventSchema` (`Event.js` lines 265-267):
`currentCount >= maxCapacity`. -/
def isFull (ev : EventRec) : Bool :=
  decide ((ev.maxCapacity : Int) ≤ ev.currentCount)

/-- The method `eventSchema.methods.canUserRegister` (`Event.js` lines 274-288): each
non-empty allow-list must contain the caller's corresponding attribute. -/
def canUserRegister (ev : EventRec) (u : UserRec) : Bool :=
  (ev.allowedRoles.isEmpty || ev.allowedRoles.contains u.role) &&
  (ev.allowedDepartments.isEmpty || ev.allowedDepartments.contains u.department) &&
  (ev.allowedYears.isEmpty || ev.allowedYears.contains u.year)

/-- The per-event system state: the event document and the Registration
documents for it.  `nextId` models fresh Mongo `_id` allocation. -/
structure SysState where
  event : EventRec
  regs : List Registration
  nextId : Nat
deriving DecidableEq, Repr

/-- The typed errors the registration routes return (their distinct 4xx
response messages in `routes/registrations.js`). -/
inductive RegError
  | eventNotAdmitting
  | notEligible
  | alreadyRegistered
  | deadlinePassed
  | eventFull
  | invalidTransition
  | notAuthorized
  | registrationNotFound
deriving DecidableEq, Repr

/-- Line 47 of `routes/registrations.js`: `event.registration.deadline && new Date() > deadline`.
The guard fires only strictly after the deadline, and only when one is set. -/
def pastDeadline (ev : EventRec) (now : Nat) : Bool :=
  match ev.deadline with
  | some d => decide (d < now)
  | none => false

/-- The status filter of the admission count (`routes/registrations.js`
lines 54-57): status $in approved, pending. -/
def capacityHolding (r : Registration) : Bool :=
  r.status == RegStatus.approved || r.status == RegStatus.pending

/-- The occupancy figure admission compares against `maxCapacity`
(`routes/registrations.js` lines 54-57): `countDocuments` over the event
with status $in approved, pending. -/
def currentRegistrations (st : SysState) : Nat :=
  (st.regs.filter capacityHolding).length

/-- The check phase of the registration POST route (`routes/registrations.js` lines
13-64), in source order: event admitting, eligibility, duplicate lookup
(`findOne({user, event})` with no status filter), deadline, capacity.
Returns the error the route would respond with, or `none` if all checks pass.
In the source each check is a separate awaited database read, executed before
the writes of the commit phase. -/
def registerCheck (st : SysState) (u : UserRec) (now : Nat) : Option RegError :=
  if st.event.status = EvStatus.published then
    if canUserRegister st.event u then
      if st.regs.any (fun r => r.user == u.id) then some RegError.alreadyRegistered
      else if pastDeadline st.event now then some RegError.deadlinePassed
      else if st.event.maxCapacity ≤ currentRegistrations st then some RegError.eventFull
      else none
    else some RegError.notEligible
  else some RegError.eventNotAdmitting

/-- The commit phase of the registration POST route (`routes/registrations.js` lines
66-86): build the new Registration (`pending` when `approvalRequired`, else
`approved`; payment required when the fee is positive), save it, then
$inc registration.currentCount by 1.  In the source these writes are
separate awaited operations, issued after the check phase. -/
def registerCommit (st : SysState) (u : UserRec) : SysState :=
  { st with
    regs := st.regs ++
      [{ id := st.nextId,
         user := u.id,
         status := if st.event.approvalRequired then RegStatus.pending else RegStatus.approved,
         paymentRequired := decide (0 < st.event.feeAmount) }],
    nextId := st.nextId + 1,
    event := { st.event with currentCount := st.event.currentCount + 1 } }

/-- The registration POST route run to completion with no interleaved writer: the
check phase followed, on success, by the commit phase. -/
def register (st : SysState) (u : UserRec) (now : Nat) : Except RegError SysState :=
  match registerCheck st u now with
  | some e => Except.error e
  | none => Except.ok (registerCommit st u)

/-- Update the (unique-`_id`) Registration document `regId` in the collection:
`registration.save()` after mutating the loaded document. -/
def updateReg (regs : List Registration) (regId : Nat) (f : Registration → Registration) :
    List Registration :=
  match regs with
  | [] => []
  | r :: rs => if r.id == regId then f r :: rs else r :: updateReg rs regId f

/-- The approve route, PUT :id/approve (`routes/registrations.js` lines 223-284):
load the registration, check authority (`canApprove`, modelled by the
`authorized` flag), require status to be pending, then either
`registration.approve(user)` (no count change) or `registration.reject(...)`
followed by $inc registration.currentCount by -1. -/
def decideRegistration (st : SysState) (regId : Nat) (approved : Bool)
    (approver : Nat) (authorized : Bool) : Except RegError SysState :=
  match st.regs.find? (fun r => r.id == regId) with
  | none => Except.error RegError.registrationNotFound
  | some reg =>
    if authorized then
      if reg.status = RegStatus.pending then
        if approved then
          Except.ok { st with regs := updateReg st.regs regId (fun r => r.approveDoc approver) }
        else
          Except.ok { st with
            regs := updateReg st.regs regId (fun r => r.rejectDoc none approver),
            event := { st.event with currentCount := st.event.currentCount - 1 } }
      else Except.error RegError.invalidTransition
    else Except.error RegError.notAuthorized

/-- The attendance route, PUT :id/attendance (`routes/registrations.js` lines 286-344):
load the registration, check authority, require status to be approved, then
`registration.markAttendance(present)`.  No branch touches
`registration.currentCount` — not even `present = false` (`absent`). -/
def markAttendance (st : SysState) (regId : Nat) (present : Bool) (authorized : Bool) :
    Except RegError SysState :=
  match st.regs.find? (fun r => r.id == regId) with
  | none => Except.error RegError.registrationNotFound
  | some reg =>
    if authorized then
      if reg.status = RegStatus.approved then
        Except.ok { st with regs := updateReg st.regs regId (fun r => r.markAttendanceDoc present) }
      else Except.error RegError.invalidTransition
    else Except.error RegError.notAuthorized

/-- The cancel route, DELETE :id (`routes/registrations.js` lines 346-393): load
the registration, check authority (`canCancel`, modelled by `authorized`),
then — with no check on the current status — set the status to cancelled,
record the reason, save, and $inc registration.currentCount by -1. -/
def cancel (st : SysState) (regId : Nat) (reason : Option String) (authorized : Bool) :
    Except RegError SysState :=
  match st.regs.find? (fun r => r.id == regId) with
  | none => Except.error RegError.registrationNotFound
  | some _ =>
    if authorized then
      Except.ok { st with
        regs := updateReg st.regs regId
          (fun r => { r with status := RegStatus.cancelled, cancellationReason := reason }),
        event := { st.event with currentCount := st.event.currentCount - 1 } }
    else Except.error RegError.notAuthorized

/-- One entry of the `results` array of the bulk-approve route. -/
structure BulkResult where
  id : Nat
  success : Bool
deriving DecidableEq, Repr

/-- The bulk-approve route, POST bulk-approve (`routes/registrations.js` lines 395-432):
`Registration.find` with filter id $in registrationIds and status pending — only
documents currently `pending` are loaded — then for each, approve (no count
change) or reject plus `$inc: -1`, pushing a result entry.  Ids whose
registration is not `pending` are never loaded and get no result entry.
`bulkStep` is the loop body (lines 412-426); `bulkApprove` is the route. -/
def bulkStep (approved : Bool) (approver : Nat) (acc : SysState × List BulkResult)
    (reg : Registration) : SysState × List BulkResult :=
  if approved then
    ({ acc.1 with regs := updateReg acc.1.regs reg.id (fun r => r.approveDoc approver) },
     acc.2 ++ [{ id := reg.id, success := true }])
  else
    ({ acc.1 with
         regs := updateReg acc.1.regs reg.id (fun r => r.rejectDoc none approver),
         event := { acc.1.event with currentCount := acc.1.event.currentCount - 1 } },
     acc.2 ++ [{ id := reg.id, success := true }])

def bulkApprove (st : SysState) (ids : List Nat) (approved : Bool) (approver : Nat) :
    SysState × List BulkResult :=
  (st.regs.filter (fun r => ids.contains r.id && r.status == RegStatus.pending)).foldl
    (bulkStep approved approver) (st, [])

/-- A client-visible operation on one event, as in the claims: `Register`,
`Decide` (the approve route with its `approved` flag), `Cancel`. -/
inductive Op
  | registerOp (u : UserRec) (now : Nat)
  | decideOp (regId : Nat) (approved : Bool) (approver : Nat) (authorized : Bool)
  | cancelOp (regId : Nat) (reason : Option String) (authorized : Bool)
deriving DecidableEq, Repr

/-- Apply one operation; a route that responds with an error performs no
state mutation. -/
def applyOp (st : SysState) : Op → SysState
  | Op.registerOp u now =>
    match register st u now with
    | Except.ok st' => st'
    | Except.error _ => st
  | Op.decideOp regId approved approver authorized =>
    match decideRegistration st regId approved approver authorized with
    | Except.ok st' => st'
    | Except.error _ => st
  | Op.cancelOp regId reason authorized =>
    match cancel st regId reason authorized with
    | Except.ok st' => st'
    | Except.error _ => st

/-- Run a sequence of operations. -/
def run (st : SysState) (ops : List Op) : SysState :=
  ops.foldl applyOp st

def CapInv (cap : Nat) (st : SysState) : Prop :=
  st.event.maxCapacity = cap ∧
  st.event.currentCount ≤ (currentRegistrations st : Int) ∧
  currentRegistrations st ≤ cap

/-- A published event with the given capacity, empty count, no deadline, no
fee, no eligibility restrictions, immediate approval. -/
def sampleEvent (cap : Nat) : EventRec :=
  { status := EvStatus.published, maxCapacity := cap, currentCount := 0,
    approvalRequired := false, deadline := none, feeAmount := 0,
    allowedRoles := [], allowedDepartments := [], allowedYears := [] }

def sampleUser (n : Nat) : UserRec :=
  { id := n, role := Role.student, department := 0, year := 1 }

/-- Input for the claim C1 counterexample: one registration, cancelled twice. -/
def c1Ops : List Op :=
  [Op.registerOp (sampleUser 1) 0, Op.cancelOp 0 none true, Op.cancelOp 0 none true]

def c2Init : SysState := { event := sampleEvent 1, regs := [], nextId := 0 }

deriving instance DecidableEq for Except

def c3State : SysState :=
  { event := { sampleEvent 5 with currentCount := 1 },
    regs := [{ id := 0, user := 1, status := RegStatus.approved }], nextId := 1 }

def c3After : SysState :=
  { event := { sampleEvent 5 with currentCount := 1 },
    regs := [{ id := 0, user := 1, status := RegStatus.absent, attendanceMarked := true }],
    nextId := 1 }

def c4State : SysState :=
  { event := sampleEvent 5,
    regs := [{ id := 0, user := 1, status := RegStatus.rejected }], nextId := 1 }

def c4After : SysState :=
  { event := { sampleEvent 5 with currentCount := -1 },
    regs := [{ id := 0, user := 1, status := RegStatus.cancelled }], nextId := 1 }

/-- Modelled from the spec: `capacityHeld` is true iff status ∈ {pending,
approved, attended}; stated only to compare with the source's admission
filter. -/
def capacityHeldSpec (r : Registration) : Bool :=
  r.status == RegStatus.pending || r.status == RegStatus.approved ||
    r.status == RegStatus.attended

def c5State : SysState :=
  { event := { sampleEvent 1 with currentCount := 1 },
    regs := [{ id := 0, user := 1, status := RegStatus.attended }], nextId := 1 }

def c6State : SysState :=
  { event := sampleEvent 5,
    regs := [{ id := 0, user := 1, status := RegStatus.cancelled }], nextId := 1 }

def c7State : SysState :=
  { event := { sampleEvent 5 with deadline := some 100, currentCount := 0 },
    regs := [], nextId := 0 }

/-- The kinds of domain events the spec's Broadcast Router transports,
plus the synthetic `Snapshot` kind sent on subscribe. -/
inductive DomainKind
  | registrationCreated
  | registrationApproved
  | registrationRejected
  | registrationCancelled
  | attendanceMarked
  | snapshot
deriving DecidableEq, Repr

/-- Wire-level framing of a domain event. -/
structure DomainEvent where
  eventId : Nat
  kind : DomainKind
  occupiedCountAfter : Int
  sequenceNumber : Nat
deriving DecidableEq, Repr

/-- The Broadcast Router's per-event state: current subscribers and the
publish history since the router started. -/
structure RouterState where
  subscribers : List Nat
  history : List DomainEvent
deriving DecidableEq, Repr

/-- Modelled from the spec: the server-side handler for the `join-event`
message (sent by `WebSocketService.joinEvent`, `src/unnamed/part_002` lines
92-94) is not among the source files — only the client-side sender and the
API documentation are.  Per the spec, `Subscribe` registers the observer and
immediately delivers to it a synthetic snapshot domain event whose
`occupiedCountAfter` is the event's current occupied count, consulting no
publish history. -/
def subscribe (rt : RouterState) (evId : Nat) (ev : EventRec) (observer : Nat) :
    RouterState × DomainEvent :=
  ({ rt with subscribers := observer :: rt.subscribers },
   { eventId := evId, kind := DomainKind.snapshot,
     occupiedCountAfter := ev.currentCount, sequenceNumber := 0 })

def c10State : SysState :=
  { event := sampleEvent 5,
    regs := [{ id := 0, user := 1, status := RegStatus.approved },
             { id := 1, user := 2, status := RegStatus.pending }], nextId := 2 }

/-! ## Theorems -/

theorem length_filter_updateReg (p : Registration → Bool) (l : List Registration)
    (regId : Nat) (f : Registration → Registration) (reg : Registration)
    (h : l.find? (fun r => r.id == regId) = some reg) :
    ((updateReg l regId f).filter p).length + (if p reg then 1 else 0)
      = (l.filter p).length + (if p (f reg) then 1 else 0) := by
  induction l with
  | nil => simp at h
  | cons r rs ih =>
    by_cases hr : (r.id == regId) = true
    · have hreg : r = reg := by
        simp [List.find?_cons, hr] at h
        exact h
      subst hreg
      simp only [updateReg, hr, if_true, List.filter_cons]
      by_cases hp1 : p r = true <;> by_cases hp2 : p (f r) = true <;>
        simp [hp1, hp2] <;> omega
    · have hfind : rs.find? (fun r => r.id == regId) = some reg := by
        simp only [List.find?_cons, hr] at h
        simpa using h
      have := ih hfind
      simp only [updateReg, hr, if_false, List.filter_cons]
      by_cases hp : p r = true <;> simp [hp] <;> omega

theorem currentRegistrations_commit (st : SysState) (u : UserRec) :
    currentRegistrations (registerCommit st u) = currentRegistrations st + 1 := by
  unfold currentRegistrations registerCommit
  by_cases ha : st.event.approvalRequired = true <;>
    simp [ha, List.filter_append, capacityHolding, List.filter_cons]

theorem registerCheck_none_capacity (st : SysState) (u : UserRec) (now : Nat)
    (h : registerCheck st u now = none) :
    currentRegistrations st < st.event.maxCapacity := by
  unfold registerCheck at h
  split at h
  · split at h
    · split at h
      · simp at h
      · split at h
        · simp at h
        · split at h
          · simp at h
          · omega
    · simp at h
  · simp at h

theorem capInv_applyOp (cap : Nat) (st : SysState) (op : Op) (h : CapInv cap st) :
    CapInv cap (applyOp st op) := by
  obtain ⟨hcap, hle, hcur⟩ := h
  cases op with
  | registerOp u now =>
    cases hc : registerCheck st u now with
    | some e =>
      simp only [applyOp, register, hc]
      exact ⟨hcap, hle, hcur⟩
    | none =>
      simp only [applyOp, register, hc]
      have hlt := registerCheck_none_capacity st u now hc
      have hcr := currentRegistrations_commit st u
      refine ⟨by simp [registerCommit, hcap], ?_, ?_⟩
      · rw [hcr]
        show st.event.currentCount + 1 ≤ _
        push_cast
        omega
      · omega
  | decideOp regId approved approver authorized =>
    cases hf : st.regs.find? (fun r => r.id == regId) with
    | none =>
      simp only [applyOp, decideRegistration, hf]
      exact ⟨hcap, hle, hcur⟩
    | some reg =>
      cases authorized with
      | false =>
        simp only [applyOp, decideRegistration, hf, Bool.false_eq_true, if_false]
        exact ⟨hcap, hle, hcur⟩
      | true =>
        by_cases hst : reg.status = RegStatus.pending
        · cases approved with
          | true =>
            simp only [applyOp, decideRegistration, hf, hst, if_true]
            have heq := length_filter_updateReg capacityHolding st.regs regId
              (fun r => r.approveDoc approver) reg hf
            have hpr : capacityHolding reg = true := by simp [capacityHolding, hst]
            have hpa : capacityHolding (reg.approveDoc approver) = true := by
              simp [capacityHolding, Registration.approveDoc]
            simp only [hpr, hpa] at heq
            simp at heq
            refine ⟨hcap, ?_, ?_⟩ <;>
              simp only [currentRegistrations] at hle hcur ⊢ <;> push_cast <;> omega
          | false =>
            simp only [applyOp, decideRegistration, hf, hst, if_true, Bool.false_eq_true, if_false]
            have heq := length_filter_updateReg capacityHolding st.regs regId
              (fun r => r.rejectDoc none approver) reg hf
            have hpr : capacityHolding reg = true := by simp [capacityHolding, hst]
            have hpa : capacityHolding (reg.rejectDoc none approver) = false := by
              simp [capacityHolding, Registration.rejectDoc]
            simp only [hpr, hpa] at heq
            simp at heq
            refine ⟨hcap, ?_, ?_⟩ <;>
              simp only [currentRegistrations] at hle hcur ⊢ <;> push_cast <;> omega
        · simp only [applyOp, decideRegistration, hf, hst, if_false]
          exact ⟨hcap, hle, hcur⟩
  | cancelOp regId reason authorized =>
    cases hf : st.regs.find? (fun r => r.id == regId) with
    | none =>
      simp only [applyOp, cancel, hf]
      exact ⟨hcap, hle, hcur⟩
    | some reg =>
      cases authorized with
      | false =>
        simp only [applyOp, cancel, hf, Bool.false_eq_true, if_false]
        exact ⟨hcap, hle, hcur⟩
      | true =>
        simp only [applyOp, cancel, hf, if_true]
        have heq := length_filter_updateReg capacityHolding st.regs regId
          (fun r => { r with status := RegStatus.cancelled, cancellationReason := reason }) reg hf
        have hpa : capacityHolding { reg with status := RegStatus.cancelled, cancellationReason := reason } = false := by
          simp [capacityHolding]
        simp only [hpa] at heq
        simp at heq
        by_cases hpr : capacityHolding reg = true <;>
          simp [hpr] at heq <;>
          refine ⟨hcap, ?_, ?_⟩ <;>
          simp only [currentRegistrations] at hle hcur ⊢ <;> push_cast <;> omega

theorem capInv_run (cap : Nat) (st : SysState) (ops : List Op) (h : CapInv cap st) :
    CapInv cap (run st ops) := by
  induction ops generalizing st with
  | nil => exact h
  | cons op ops ih => exact ih (applyOp st op) (capInv_applyOp cap st op h)

/-- Claim C1, counterexample: the claimed lower bound fails.  From a fresh
published event with capacity 1, the operation sequence Register, Cancel,
Cancel (the same registration cancelled twice — the cancel route never checks
the current status) drives `registration.currentCount` to -1, below 0. -/
theorem c1_counterexample :
    (run { event := sampleEvent 1, regs := [], nextId := 0 } c1Ops).event.currentCount = -1 ∧
    (run { event := sampleEvent 1, regs := [], nextId := 0 } c1Ops).event.currentCount < 0 := by
  decide

/-- Claim C1, amended: for every sequence of Register, Decide and Cancel
operations applied to an event that starts with no registrations and a zero
occupied count, `registration.currentCount` never exceeds
`registration.maxCapacity`.  The other half of the claim — that the count
never drops below 0 — is false; see the counterexample. -/
theorem c1_theorem (ev : EventRec) (ops : List Op) (h0 : ev.currentCount = 0) :
    (run { event := ev, regs := [], nextId := 0 } ops).event.currentCount
      ≤ ((run { event := ev, regs := [], nextId := 0 } ops).event.maxCapacity : Int) := by
  have hinv := capInv_run ev.maxCapacity { event := ev, regs := [], nextId := 0 } ops
    ⟨rfl, by simp [currentRegistrations, h0], by simp [currentRegistrations]⟩
  obtain ⟨hcap, hle, hcur⟩ := hinv
  rw [hcap]
  exact hle.trans (by exact_mod_cast hcur)

/-- Claim C1 witness: the amended bound evaluated on a concrete run. -/
theorem c1_witness :
    (sampleEvent 1).currentCount = 0 ∧
    (run { event := sampleEvent 1, regs := [], nextId := 0 } c1Ops).event.currentCount
      ≤ ((run { event := sampleEvent 1, regs := [], nextId := 0 } c1Ops).event.maxCapacity : Int) :=
  ⟨rfl, c1_theorem (sampleEvent 1) c1Ops rfl⟩

/-- Claim C2, counterexample: the capacity check and the count increment are
separate awaited database operations, not one atomic step.  In the
interleaving check A, check B, commit A, commit B on an event with a single
slot, both Register calls pass the check against the same empty state and
both commit: both succeed, and the event ends with 2 holding registrations
and `currentCount = 2` against `maxCapacity = 1`. -/
theorem c2_counterexample :
    c2Init.event.maxCapacity = 1 ∧
    registerCheck c2Init (sampleUser 1) 0 = none ∧
    registerCheck c2Init (sampleUser 2) 0 = none ∧
    currentRegistrations (registerCommit (registerCommit c2Init (sampleUser 1)) (sampleUser 2)) = 2 ∧
    (registerCommit (registerCommit c2Init (sampleUser 1)) (sampleUser 2)).event.currentCount = 2 := by
  decide

/-- Claim C2, amended: when the two Register calls for distinct users execute
sequentially — the first call's check and commit complete before the second
call's check runs — exactly one succeeds and the other fails with EventFull.
The atomicity part of the claim is false: interleaved executions admit both
(see the counterexample). -/
theorem c2_theorem (ev : EventRec) (uA uB : UserRec) (now : Nat)
    (hpub : ev.status = EvStatus.published)
    (hcap : ev.maxCapacity = 1)
    (heA : canUserRegister ev uA = true)
    (heB : canUserRegister ev uB = true)
    (hdl : pastDeadline ev now = false)
    (hne : uA.id ≠ uB.id) :
    register { event := ev, regs := [], nextId := 0 } uA now
      = Except.ok (registerCommit { event := ev, regs := [], nextId := 0 } uA) ∧
    register (registerCommit { event := ev, regs := [], nextId := 0 } uA) uB now
      = Except.error RegError.eventFull := by
  obtain ⟨status, cap, cnt, appr, dl, fee, ar, ad, ay⟩ := ev
  simp only at hpub hcap heA heB hdl
  subst hpub hcap
  constructor
  · simp [register, registerCheck, heA, hdl, currentRegistrations]
  · simp [canUserRegister] at heB
    simp only [pastDeadline] at hdl
    by_cases happr : appr = true <;>
      simp [register, registerCheck, registerCommit, happr, currentRegistrations,
        capacityHolding, canUserRegister, pastDeadline] <;>
      simp [heB, hdl, hne, pastDeadline]

/-- Claim C2 witness: the sequential exactly-one property at a concrete event. -/
theorem c2_witness :
    (sampleEvent 1).status = EvStatus.published ∧
    (sampleEvent 1).maxCapacity = 1 ∧
    canUserRegister (sampleEvent 1) (sampleUser 1) = true ∧
    canUserRegister (sampleEvent 1) (sampleUser 2) = true ∧
    pastDeadline (sampleEvent 1) 0 = false ∧
    (sampleUser 1).id ≠ (sampleUser 2).id ∧
    (register { event := sampleEvent 1, regs := [], nextId := 0 } (sampleUser 1) 0
        = Except.ok (registerCommit { event := sampleEvent 1, regs := [], nextId := 0 } (sampleUser 1)) ∧
      register (registerCommit { event := sampleEvent 1, regs := [], nextId := 0 } (sampleUser 1)) (sampleUser 2) 0
        = Except.error RegError.eventFull) :=
  ⟨rfl, rfl, by decide, by decide, rfl, by decide,
    c2_theorem (sampleEvent 1) (sampleUser 1) (sampleUser 2) 0 rfl rfl (by decide) (by decide) rfl (by decide)⟩

/-- Claim C3, amended: per successful operation, the occupied count is
decremented exactly once on Decide-reject of a pending registration and
exactly once on every successful Cancel call whatever the current status of
the registration (so repeated Cancels of one registration decrement
repeatedly), and never on Decide-approve or on marking attendance — including
the approved-to-absent transition, which contrary to the claim releases
nothing. -/
theorem c3_theorem (st : SysState) (regId : Nat) (reg : Registration)
    (hf : st.regs.find? (fun r => r.id == regId) = some reg) :
    (∀ approver, reg.status = RegStatus.pending →
      decideRegistration st regId true approver true
        = Except.ok { st with regs := updateReg st.regs regId (fun r => r.approveDoc approver) }) ∧
    (∀ approver, reg.status = RegStatus.pending →
      decideRegistration st regId false approver true
        = Except.ok { st with
            regs := updateReg st.regs regId (fun r => r.rejectDoc none approver),
            event := { st.event with currentCount := st.event.currentCount - 1 } }) ∧
    (∀ present, reg.status = RegStatus.approved →
      markAttendance st regId present true
        = Except.ok { st with regs := updateReg st.regs regId (fun r => r.markAttendanceDoc present) }) ∧
    (∀ reason, cancel st regId reason true
        = Except.ok { st with
            regs := updateReg st.regs regId
              (fun r => { r with status := RegStatus.cancelled, cancellationReason := reason }),
            event := { st.event with currentCount := st.event.currentCount - 1 } }) := by
  refine ⟨?_, ?_, ?_, ?_⟩ <;> intros <;> simp [decideRegistration, markAttendance, cancel, hf, *]

/-- Claim C3, counterexample: marking an approved registration absent — a
transition whose capacity delta the claim says is -1 — leaves the occupied
count unchanged at 1: the attendance route never touches `currentCount`. -/
theorem c3_counterexample :
    c3State.regs.map Registration.status = [RegStatus.approved] ∧
    markAttendance c3State 0 false true = Except.ok c3After ∧
    c3After.regs.map Registration.status = [RegStatus.absent] ∧
    c3After.event.currentCount = c3State.event.currentCount ∧
    c3After.event.currentCount = 1 := by
  decide

/-- Claim C3 witness: the attendance clause of the amended theorem at a concrete state. -/
theorem c3_witness :
    c3State.regs.find? (fun r => r.id == 0)
      = some { id := 0, user := 1, status := RegStatus.approved } ∧
    (∀ present, ({ id := 0, user := 1, status := RegStatus.approved } : Registration).status
        = RegStatus.approved →
      markAttendance c3State 0 present true
        = Except.ok { c3State with
            regs := updateReg c3State.regs 0 (fun r => r.markAttendanceDoc present) }) :=
  ⟨by decide, (c3_theorem c3State 0 { id := 0, user := 1, status := RegStatus.approved }
      (by decide)).2.2.1⟩

/-- Claim C4, amended: Cancel succeeds for a registration in any current
status whenever the actor is authorized — the route has no capacity-holding
precondition — and always sets the status to cancelled and decrements the
occupied count, including for registrations already in rejected, cancelled or
absent states. -/
theorem c4_theorem (st : SysState) (regId : Nat) (reg : Registration) (reason : Option String)
    (hf : st.regs.find? (fun r => r.id == regId) = some reg) :
    cancel st regId reason true
      = Except.ok { st with
          regs := updateReg st.regs regId
            (fun r => { r with status := RegStatus.cancelled, cancellationReason := reason }),
          event := { st.event with currentCount := st.event.currentCount - 1 } } := by
  simp [cancel, hf]

/-- Claim C4, counterexample: cancelling a registration whose status is
rejected (a released, terminal, non-holding state) succeeds and decrements
the occupied count to -1, where the claim requires failure with no change to
either the registration or the count. -/
theorem c4_counterexample :
    c4State.regs.map Registration.status = [RegStatus.rejected] ∧
    cancel c4State 0 none true = Except.ok c4After ∧
    c4After.event.currentCount = c4State.event.currentCount - 1 := by
  decide

/-- Claim C4 witness: the amended theorem applied at a concrete rejected registration. -/
theorem c4_witness :
    c4State.regs.find? (fun r => r.id == 0)
      = some { id := 0, user := 1, status := RegStatus.rejected } ∧
    cancel c4State 0 none true
      = Except.ok { c4State with
          regs := updateReg c4State.regs 0
            (fun r => { r with status := RegStatus.cancelled, cancellationReason := none }),
          event := { c4State.event with currentCount := c4State.event.currentCount - 1 } } :=
  ⟨by decide, c4_theorem c4State 0 { id := 0, user := 1, status := RegStatus.rejected } none
    (by decide)⟩

/-- Claim C5, amended: the occupancy figure admission compares against
`maxCapacity` is the number of registrations whose status is in
{approved, pending} only — `attended` registrations hold no slot for
admission.  Given the earlier checks pass, Register fails with EventFull iff
that figure has reached `maxCapacity`. -/
theorem c5_theorem (st : SysState) (u : UserRec) (now : Nat)
    (hpub : st.event.status = EvStatus.published)
    (hel : canUserRegister st.event u = true)
    (hnr : st.regs.any (fun r => r.user == u.id) = false)
    (hdl : pastDeadline st.event now = false) :
    (register st u now = Except.error RegError.eventFull ↔
      st.event.maxCapacity ≤
        (st.regs.filter
          (fun r => r.status == RegStatus.approved || r.status == RegStatus.pending)).length) ∧
    currentRegistrations st =
      (st.regs.filter
        (fun r => r.status == RegStatus.approved || r.status == RegStatus.pending)).length := by
  refine ⟨?_, rfl⟩
  have hfold :
      (st.regs.filter
        (fun r => r.status == RegStatus.approved || r.status == RegStatus.pending))
        = st.regs.filter capacityHolding := rfl
  rw [hfold]
  unfold register registerCheck
  by_cases hc : st.event.maxCapacity ≤ (st.regs.filter capacityHolding).length <;>
    simp [hpub, hel, hnr, hdl, hc, currentRegistrations]

/-- Claim C5, counterexample: an event of capacity 1 whose only registration
is `attended` — capacity-holding per the claim, so the event should be full —
still admits a new user: the admission count is 0, not the 1 computed by the
claimed holding set {pending, approved, attended}. -/
theorem c5_counterexample :
    (c5State.regs.filter capacityHeldSpec).length = 1 ∧
    c5State.event.maxCapacity = 1 ∧
    currentRegistrations c5State = 0 ∧
    (register c5State (sampleUser 2) 0).isOk = true := by
  decide

/-- Claim C5 witness: the amended characterisation at a concrete state. -/
theorem c5_witness :
    c5State.event.status = EvStatus.published ∧
    canUserRegister c5State.event (sampleUser 2) = true ∧
    c5State.regs.any (fun r => r.user == (sampleUser 2).id) = false ∧
    pastDeadline c5State.event 0 = false ∧
    ((register c5State (sampleUser 2) 0 = Except.error RegError.eventFull ↔
        c5State.event.maxCapacity ≤
          (c5State.regs.filter
            (fun r => r.status == RegStatus.approved || r.status == RegStatus.pending)).length) ∧
      currentRegistrations c5State =
        (c5State.regs.filter
          (fun r => r.status == RegStatus.approved || r.status == RegStatus.pending)).length) :=
  ⟨rfl, by decide, by decide, rfl,
    c5_theorem c5State (sampleUser 2) 0 rfl (by decide) (by decide) rfl⟩

/-- Claim C6, amended: Register fails with AlreadyRegistered iff any prior
registration — of any status, terminal ones included — exists for the
(user, event) pair: the `findOne` duplicate lookup has no status filter. -/
theorem c6_theorem (st : SysState) (u : UserRec) (now : Nat)
    (hpub : st.event.status = EvStatus.published)
    (hel : canUserRegister st.event u = true) :
    (register st u now = Except.error RegError.alreadyRegistered ↔
      ∃ r ∈ st.regs, r.user = u.id) := by
  unfold register registerCheck
  by_cases hr : st.regs.any (fun r => r.user == u.id) = true
  · simp only [List.any_eq_true, beq_iff_eq] at hr
    simp [hpub, hel, hr, List.any_eq_true]
  · simp only [Bool.not_eq_true] at hr
    have hex : ¬ ∃ r ∈ st.regs, r.user = u.id := by
      simp only [List.any_eq_false, beq_iff_eq] at hr
      intro ⟨r, hmem, heq⟩
      exact hr r hmem heq
    simp only [hpub, hel, hr, if_true, if_false]
    by_cases hdl : pastDeadline st.event now = true <;>
      by_cases hc : st.event.maxCapacity ≤ currentRegistrations st <;>
      simp [hdl, hc, hex]

/-- Claim C6, counterexample: a user whose only prior registration for the
event is cancelled (terminal) is rejected with AlreadyRegistered, where the
claim says a user with only a terminal prior registration must not be
rejected for this reason. -/
theorem c6_counterexample :
    c6State.regs.map Registration.status = [RegStatus.cancelled] ∧
    register c6State (sampleUser 1) 0 = Except.error RegError.alreadyRegistered := by
  decide

/-- Claim C6 witness: the amended iff at a concrete state with a terminal registration. -/
theorem c6_witness :
    c6State.event.status = EvStatus.published ∧
    canUserRegister c6State.event (sampleUser 1) = true ∧
    (register c6State (sampleUser 1) 0 = Except.error RegError.alreadyRegistered ↔
      ∃ r ∈ c6State.regs, r.user = (sampleUser 1).id) :=
  ⟨rfl, by decide, c6_theorem c6State (sampleUser 1) 0 rfl (by decide)⟩

/-- Claim C7, amended: a Register call made strictly after the event's
registration deadline fails with DeadlinePassed and leaves the state (count
and registrations) unchanged.  No capacity or emptiness hypothesis is needed,
so a full event past its deadline also reports DeadlinePassed — the deadline
check precedes the capacity check, as claimed.  The boundary is the
correction: at the deadline instant itself the code admits, because the guard
is the strict `new Date() > deadline`. -/
theorem c7_theorem (st : SysState) (u : UserRec) (now d : Nat)
    (hpub : st.event.status = EvStatus.published)
    (hel : canUserRegister st.event u = true)
    (hnr : st.regs.any (fun r => r.user == u.id) = false)
    (hd : st.event.deadline = some d) (hlt : d < now) :
    register st u now = Except.error RegError.deadlinePassed ∧
    applyOp st (Op.registerOp u now) = st := by
  have hpd : pastDeadline st.event now = true := by simp [pastDeadline, hd, hlt]
  constructor
  · simp [register, registerCheck, hpub, hel, hnr, hpd]
  · simp [applyOp, register, registerCheck, hpub, hel, hnr, hpd]

/-- Claim C7, counterexample: a Register call made exactly at the deadline
instant (`now = deadline`) is not rejected with DeadlinePassed — it is
admitted, where the claim requires calls at or after the deadline to fail. -/
theorem c7_counterexample :
    c7State.event.deadline = some 100 ∧
    register c7State (sampleUser 1) 100 ≠ Except.error RegError.deadlinePassed ∧
    (register c7State (sampleUser 1) 100).isOk = true := by
  decide

/-- Claim C7 witness: the amended theorem one second past a concrete deadline. -/
theorem c7_witness :
    c7State.event.status = EvStatus.published ∧
    canUserRegister c7State.event (sampleUser 1) = true ∧
    c7State.regs.any (fun r => r.user == (sampleUser 1).id) = false ∧
    c7State.event.deadline = some 100 ∧
    100 < 101 ∧
    (register c7State (sampleUser 1) 101 = Except.error RegError.deadlinePassed ∧
      applyOp c7State (Op.registerOp (sampleUser 1) 101) = c7State) :=
  ⟨rfl, by decide, rfl, rfl, by decide,
    c7_theorem c7State (sampleUser 1) 101 100 rfl (by decide) rfl rfl (by decide)⟩

/-- Claim C8: a Subscribe call immediately delivers to the new subscriber a
synthetic snapshot domain event carrying the event's current occupied count
(in particular, `occupiedCountAfter = 7` when the count is 7), for any router
state — so even when no Publish has occurred since the subscription.
Modelled from the spec, because the server-side join-event handler is not
among the source files. -/
theorem c8_theorem (rt : RouterState) (evId : Nat) (ev : EventRec) (observer : Nat) :
    (subscribe rt evId ev observer).2.kind = DomainKind.snapshot ∧
    (subscribe rt evId ev observer).2.occupiedCountAfter = ev.currentCount ∧
    observer ∈ (subscribe rt evId ev observer).1.subscribers ∧
    (subscribe rt evId { ev with currentCount := 7 } observer).2.occupiedCountAfter = 7 := by
  simp [subscribe]

/-- Claim C9: `availableSlots` equals max(0, maxCapacity - currentCount) and
is never negative — also when `currentCount` exceeds `maxCapacity` — and
`isFull` is true iff `currentCount` is at least `maxCapacity`. -/
theorem c9_theorem (ev : EventRec) :
    availableSlots ev = max 0 ((ev.maxCapacity : Int) - ev.currentCount) ∧
    0 ≤ availableSlots ev ∧
    (isFull ev = true ↔ (ev.maxCapacity : Int) ≤ ev.currentCount) := by
  refine ⟨rfl, le_max_left 0 _, ?_⟩
  simp [isFull]

theorem foldl_bulkStep_snd (a : Bool) (ap : Nat) (l : List Registration)
    (acc : SysState × List BulkResult) :
    (l.foldl (bulkStep a ap) acc).2
      = acc.2 ++ l.map (fun reg => { id := reg.id, success := true }) := by
  induction l generalizing acc with
  | nil => simp
  | cons r rs ih =>
    rw [List.foldl_cons, ih]
    have hb : (bulkStep a ap acc r).2 = acc.2 ++ [{ id := r.id, success := true }] := by
      unfold bulkStep
      split <;> rfl
    rw [hb, List.append_assoc]
    rfl

/-- Claim C10: the bulk-approve route processes only registrations whose
current status is pending.  An id in the input list all of whose
registrations are in another status gets no result entry at all (it is
silently omitted, with no InvalidTransition error), while the
single-registration decide route returns InvalidTransition for that same
id. -/
theorem c10_theorem (st : SysState) (ids : List Nat) (approved : Bool) (approver : Nat)
    (i : Nat) (hnp : ∀ r ∈ st.regs, r.id = i → r.status ≠ RegStatus.pending) :
    (∀ res ∈ (bulkApprove st ids approved approver).2, res.id ≠ i) ∧
    (∀ reg, st.regs.find? (fun r => r.id == i) = some reg →
      decideRegistration st i approved approver true
        = Except.error RegError.invalidTransition) := by
  constructor
  · intro res hres
    unfold bulkApprove at hres
    rw [foldl_bulkStep_snd] at hres
    simp only [List.nil_append, List.mem_map, List.mem_filter, Bool.and_eq_true,
      beq_iff_eq] at hres
    obtain ⟨reg, ⟨hmem, _, hpend⟩, hid⟩ := hres
    intro hcontra
    rw [← hid] at hcontra
    exact hnp reg hmem (by simpa using hcontra) hpend
  · intro reg hfind
    have hmem := List.mem_of_find?_eq_some hfind
    have hid := List.find?_some hfind
    have hst : reg.status ≠ RegStatus.pending := hnp reg hmem (by simpa using hid)
    simp [decideRegistration, hfind, hst]

/-- Claim C10 witness: the omission and the contrast at a concrete state. -/
theorem c10_witness :
    (∀ r ∈ c10State.regs, r.id = 0 → r.status ≠ RegStatus.pending) ∧
    ((∀ res ∈ (bulkApprove c10State [0, 1] true 9).2, res.id ≠ 0) ∧
      (∀ reg, c10State.regs.find? (fun r => r.id == 0) = some reg →
        decideRegistration c10State 0 true 9 true
          = Except.error RegError.invalidTransition)) :=
  ⟨by decide, c10_theorem c10State [0, 1] true 9 0 (by decide)⟩

end InfiniteLocus
